import Mathlib

/-
Verification of the hydroperiod calculator (src/hydroperiod_calculator.py).

Modelling conventions:
* A numpy 2-D array is a `Raster α`: a `shape` (rows, cols) plus its pixel
  data in row-major order; `Raster.wf` states the data length matches the
  shape, which every real numpy 2-D array satisfies.
* Input rasters are float64 in the code, modelled with exact rationals `ℚ`;
  intermediate and final hydroperiod arrays are int64, modelled with `ℤ`.
* The Sample Store `self.tif_files` is a Python dict from date strings to
  arrays; a dict preserves insertion order and `.keys()` / `.values()`
  iterate in that same order, so it is modelled as a `List (ℕ × Raster ℚ)`
  in insertion order, a date being its ordinal day number (datetime
  subtraction of two date-stamped datetimes yields exact whole days).
* Python `sorted` on the parsed dates is modelled by `List.insertionSort`
  with `≤` (dates are ℕ, so any correct ascending sort yields the same list).
* `int(days / 2)` on a Python int truncates toward zero, modelled by
  `Int.tdiv` (T-division).
* A Python function that can raise (IndexError on `arrays[0]` or
  `days_between[i + 1]`) is modelled with `Option`, `none` meaning the call
  raises; `check_array_shapes` returns `true` exactly when it raises its
  `ValueError`.
-/

/-- A 2-D numeric array: numpy shape `(rows, cols)` plus row-major data. -/
structure Raster (α : Type) where
  shape : ℕ × ℕ
  data : List α
deriving DecidableEq

/-- Well-formedness of a raster as a numpy 2-D array: the flattened data
has exactly `rows * cols` entries. -/
def Raster.wf {α : Type} (r : Raster α) : Prop :=
  r.data.length = r.shape.1 * r.shape.2

instance {α : Type} (r : Raster α) : Decidable r.wf := by
  unfold Raster.wf; infer_instance

/-- The Sample Store `self.tif_files`: date-keyed rasters in insertion
order. -/
abbrev Store := List (ℕ × Raster ℚ)

/-- Embedding of `extract_days_between_and_arrays` (lines 59-72):
`dates = sorted(parsed keys)`, `days_between = [0]` followed by
`(dates[i+1] - dates[i]).days`, and `arrays = list(self.tif_files.values())`
— note the arrays come back in dict insertion order, not date order. -/
def extract_days_between_and_arrays (store : Store) : List ℤ × List (Raster ℚ) :=
  let dates := (store.map Prod.fst).insertionSort (· ≤ ·)
  let days_between : List ℤ :=
    0 :: List.zipWith (fun (a b : ℕ) => (b : ℤ) - (a : ℤ)) dates dates.tail
  (days_between, store.map Prod.snd)

/-- Embedding of the per-interval body of `hydroperiod_calculation`
(lines 87-91): `np.full((x, y), -1)`, then the three masked assignments
for `sum_of_arrays == 0`, `== 1` and `== 2`, in source order.  `xy` is
`arrays[0].shape` computed once at line 83. -/
def intervalRaster (xy : ℕ × ℕ) (a b : Raster ℚ) (g : ℤ) : Raster ℤ :=
  let s := List.zipWith (· + ·) a.data b.data
  let t0 : List ℤ := List.replicate (xy.1 * xy.2) (-1)
  let t1 := List.zipWith (fun m v => if m = (0 : ℚ) then (0 : ℤ) else v) s t0
  let t2 := List.zipWith (fun m v => if m = (1 : ℚ) then Int.tdiv g 2 else v) s t1
  let t3 := List.zipWith (fun m v => if m = (2 : ℚ) then g else v) s t2
  ⟨xy, t3⟩

/-- The loop of lines 86-92: interval `i` pairs `arrays[i]` with
`arrays[i+1]` and reads `days_between[i+1]`; the gap list passed here is
already `days_between` with its first entry dropped.  `none` models the
IndexError raised when `days_between` runs out. -/
def intervalsAux (xy : ℕ × ℕ) : List (Raster ℚ) → List ℤ → Option (List (Raster ℤ))
  | a :: b :: rest, g :: gs => do
      let t ← intervalsAux xy (b :: rest) gs
      return intervalRaster xy a b g :: t
  | _ :: _ :: _, [] => none
  | _, _ => some []

/-- One step of the accumulation loop `final_hydroperiod += hydroperiod`
(lines 96-97). -/
def addInto (acc h : Raster ℤ) : Raster ℤ :=
  ⟨acc.shape, List.zipWith (· + ·) acc.data h.data⟩

/-- The final clamp of line 99: `final_hydroperiod[final_hydroperiod < 0] = -1`
per pixel. -/
def clampPix (v : ℤ) : ℤ :=
  if v < 0 then -1 else v

/-- Embedding of `hydroperiod_calculation` (lines 74-101): unpack
`arrays[0].shape` (IndexError on an empty list, hence `none`), build every
interval raster, sum them into an all-zero accumulator, then clamp
negatives to `-1`. -/
def hydroperiod_calculation (days_between : List ℤ) (arrays : List (Raster ℚ)) :
    Option (Raster ℤ) :=
  match arrays with
  | [] => none
  | a0 :: _ =>
    let xy := a0.shape
    match intervalsAux xy arrays (days_between.drop 1) with
    | none => none
    | some hs =>
      let final := hs.foldl addInto ⟨xy, List.replicate (xy.1 * xy.2) 0⟩
      some ⟨final.shape, final.data.map clampPix⟩

/-- Embedding of `check_array_shapes` (lines 45-57): collect the shapes of
all stored arrays and raise a `ValueError` when the set of distinct shapes
does not have exactly one element.  `true` means the function raises. -/
def check_array_shapes (store : Store) : Bool :=
  let shapes := store.map (fun s => s.2.shape)
  shapes.dedup.length != 1

/-- State of the argument array after `create_RGB` (lines 127-143) returns:
line 134 executes `final_hydroperiod += 1`, an in-place numpy increment of
the caller's array; every later operation allocates fresh arrays
(`normalized_data`, `rgba_data`), so the argument is left incremented. -/
def create_RGB_state (final_hydroperiod : Raster ℤ) : Raster ℤ :=
  ⟨final_hydroperiod.shape, final_hydroperiod.data.map (fun v => v + 1)⟩

/-- The pipeline run by the script (lines 154-155): Date-Series Assembler
followed by the Hydroperiod Accumulator. -/
def assemble_then_accumulate (store : Store) : Option (Raster ℤ) :=
  let p := extract_days_between_and_arrays store
  hydroperiod_calculation p.1 p.2

/-- Per-pixel contribution policy as the spec words it (§4.4): pair-sum 0
gives 0, pair-sum 1 gives the truncated half gap, pair-sum 2 gives the
full gap, anything else keeps the sentinel -1. -/
def specContribution (g : ℤ) (s : ℚ) : ℤ :=
  if s = 0 then 0 else if s = 1 then Int.tdiv g 2 else if s = 2 then g else -1

example : intervalRaster (1, 1) ⟨(1, 1), [0]⟩ ⟨(1, 1), [1]⟩ 10 = ⟨(1, 1), [5]⟩ := by
  simp [intervalRaster]
  decide

example : hydroperiod_calculation [0, 4, 6]
    [⟨(1, 1), [0]⟩, ⟨(1, 1), [1]⟩, ⟨(1, 1), [1]⟩] = some ⟨(1, 1), [8]⟩ := by
  simp [hydroperiod_calculation, intervalsAux, intervalRaster, addInto, clampPix]
  norm_num
  decide

example : assemble_then_accumulate [(0, ⟨(1, 1), [0]⟩), (4, ⟨(1, 1), [1]⟩), (10, ⟨(1, 1), [1]⟩)]
    = some ⟨(1, 1), [8]⟩ := by
  simp [assemble_then_accumulate, extract_days_between_and_arrays, List.insertionSort,
    List.orderedInsert, hydroperiod_calculation, intervalsAux, intervalRaster, addInto, clampPix]
  norm_num
  decide

/-! Helper lemmas about the embedded operations. -/

/-- Every element of a `zipWith` is the image of an element of each input
list. -/
theorem mem_zipWith {α β γ : Type} (f : α → β → γ) :
    ∀ (l1 : List α) (l2 : List β) (v : γ), v ∈ List.zipWith f l1 l2 →
      ∃ a ∈ l1, ∃ b ∈ l2, v = f a b
  | [], _, v, h => by simp at h
  | _ :: _, [], v, h => by simp at h
  | a :: t1, b :: t2, v, h => by
    rcases List.mem_cons.mp h with h1 | h1
    · exact ⟨a, List.mem_cons_self a t1, b, List.mem_cons_self b t2, h1⟩
    · rcases mem_zipWith f t1 t2 v h1 with ⟨x, hx, y, hy, hv⟩
      exact ⟨x, List.mem_cons_of_mem a hx, y, List.mem_cons_of_mem b hy, hv⟩

/-- Every pixel an interval raster produces is the sentinel, zero, the
truncated half gap, or the full gap. -/
theorem intervalRaster_pixel_cases (xy : ℕ × ℕ) (a b : Raster ℚ) (g : ℤ) :
    ∀ v ∈ (intervalRaster xy a b g).data,
      v = -1 ∨ v = 0 ∨ v = Int.tdiv g 2 ∨ v = g := by
  intro v hv
  simp only [intervalRaster] at hv
  rcases mem_zipWith _ _ _ _ hv with ⟨m3, hm3, w3, hw3, rfl⟩
  rcases mem_zipWith _ _ _ _ hw3 with ⟨m2, hm2, w2, hw2, rfl⟩
  rcases mem_zipWith _ _ _ _ hw2 with ⟨m1, hm1, w1, hw1, rfl⟩
  have h1 := List.eq_of_mem_replicate hw1
  subst h1
  by_cases e3 : m3 = (2 : ℚ) <;> by_cases e2 : m2 = (1 : ℚ) <;> by_cases e1 : m1 = (0 : ℚ) <;>
    simp [e1, e2, e3]

/-- With a non-negative gap, every pixel of the interval raster is at most
the gap. -/
theorem intervalRaster_pixel_le (xy : ℕ × ℕ) (a b : Raster ℚ) (g : ℤ) (hg : 0 ≤ g) :
    ∀ v ∈ (intervalRaster xy a b g).data, v ≤ g := by
  intro v hv
  rcases intervalRaster_pixel_cases xy a b g v hv with h | h | h | h
  · omega
  · omega
  · rw [h, Int.tdiv_eq_ediv hg (by norm_num)]
    exact Int.ediv_le_self 2 hg
  · omega

/-- When both inputs have exactly `rows * cols` pixels, so does the
interval raster. -/
theorem intervalRaster_data_length (xy : ℕ × ℕ) (a b : Raster ℚ) (g : ℤ)
    (ha : a.data.length = xy.1 * xy.2) (hb : b.data.length = xy.1 * xy.2) :
    (intervalRaster xy a b g).data.length = xy.1 * xy.2 := by
  simp only [intervalRaster, List.length_zipWith, List.length_replicate, ha, hb]
  omega

/-- The accumulation loop never changes the accumulator's shape. -/
theorem foldl_addInto_shape (hs : List (Raster ℤ)) :
    ∀ acc : Raster ℤ, (hs.foldl addInto acc).shape = acc.shape := by
  induction hs with
  | nil => intro acc; rfl
  | cons h t ih => intro acc; rw [List.foldl_cons, ih]; rfl

/-- The accumulation loop preserves the pixel count when every interval
raster has the same count. -/
theorem foldl_addInto_length (N : ℕ) (hs : List (Raster ℤ)) :
    (∀ h ∈ hs, h.data.length = N) →
      ∀ acc : Raster ℤ, acc.data.length = N → (hs.foldl addInto acc).data.length = N := by
  induction hs with
  | nil => intro _ acc hacc; exact hacc
  | cons h t ih =>
      intro hh acc hacc
      rw [List.foldl_cons]
      refine ih (fun x hx => hh x (List.mem_cons_of_mem h hx)) _ ?_
      simp only [addInto, List.length_zipWith, hacc, hh h (List.mem_cons_self h t)]
      omega

/-- The interval loop succeeds whenever `days_between` (here already
missing its leading 0) has at least one gap per consecutive pair. -/
theorem intervalsAux_isSome (xy : ℕ × ℕ) :
    ∀ (as : List (Raster ℚ)) (gs : List ℤ), as.length ≤ gs.length + 1 →
      ∃ hs, intervalsAux xy as gs = some hs
  | [], gs, _ => ⟨[], rfl⟩
  | [a], gs, _ => ⟨[], rfl⟩
  | a :: b :: rest, [], hlen => by
      simp only [List.length_cons, List.length_nil] at hlen
      omega
  | a :: b :: rest, g :: gs, hlen => by
      have hrec : (b :: rest).length ≤ gs.length + 1 := by
        simp only [List.length_cons] at hlen ⊢
        omega
      rcases intervalsAux_isSome xy (b :: rest) gs hrec with ⟨t, ht⟩
      exact ⟨intervalRaster xy a b g :: t, by simp [intervalsAux, ht]⟩

/-- Every interval raster built by the loop has the common pixel count of
the input rasters. -/
theorem intervalsAux_data_length (xy : ℕ × ℕ) :
    ∀ (as : List (Raster ℚ)) (gs : List ℤ) (hs : List (Raster ℤ)),
      intervalsAux xy as gs = some hs →
      (∀ a ∈ as, a.data.length = xy.1 * xy.2) →
      ∀ h ∈ hs, h.data.length = xy.1 * xy.2
  | [], gs, hs, heq, _ => by
      simp only [intervalsAux, Option.some.injEq] at heq
      subst heq
      intro h hh
      simp at hh
  | [a], gs, hs, heq, _ => by
      simp only [intervalsAux, Option.some.injEq] at heq
      subst heq
      intro h hh
      simp at hh
  | a :: b :: rest, [], hs, heq, _ => by simp [intervalsAux] at heq
  | a :: b :: rest, g :: gs, hs, heq, hwf => by
      rcases hr : intervalsAux xy (b :: rest) gs with _ | t
      · simp [intervalsAux, hr] at heq
      · simp only [intervalsAux, hr, Option.pure_def, Option.bind_eq_bind, Option.some_bind,
          Option.some.injEq] at heq
        subst heq
        intro h hh
        rcases List.mem_cons.mp hh with rfl | hmem
        · exact intervalRaster_data_length xy a b g
            (hwf a (List.mem_cons_self a _))
            (hwf b (List.mem_cons_of_mem a (List.mem_cons_self b _)))
        · exact intervalsAux_data_length xy (b :: rest) gs t hr
            (fun x hx => hwf x (List.mem_cons_of_mem a hx)) h hmem

/-- Summing the interval rasters over an accumulator bounded by `c` yields
pixels bounded by `c` plus the sum of the (non-negative) gaps. -/
theorem intervalsAux_fold_bound (xy : ℕ × ℕ) :
    ∀ (as : List (Raster ℚ)) (gs : List ℤ) (hs : List (Raster ℤ)),
      intervalsAux xy as gs = some hs → (∀ g ∈ gs, 0 ≤ g) →
      ∀ (acc : Raster ℤ) (c : ℤ), (∀ v ∈ acc.data, v ≤ c) →
      ∀ v ∈ (hs.foldl addInto acc).data, v ≤ c + gs.sum
  | [], gs, hs, heq, hg, acc, c, hacc, v, hv => by
      simp only [intervalsAux, Option.some.injEq] at heq
      subst heq
      have hs0 : (0 : ℤ) ≤ gs.sum := List.sum_nonneg hg
      have := hacc v hv
      omega
  | [a], gs, hs, heq, hg, acc, c, hacc, v, hv => by
      simp only [intervalsAux, Option.some.injEq] at heq
      subst heq
      have hs0 : (0 : ℤ) ≤ gs.sum := List.sum_nonneg hg
      have := hacc v hv
      omega
  | a :: b :: rest, [], hs, heq, hg, acc, c, hacc, v, hv => by
      simp [intervalsAux] at heq
  | a :: b :: rest, g :: gs, hs, heq, hg, acc, c, hacc, v, hv => by
      rcases hr : intervalsAux xy (b :: rest) gs with _ | t
      · simp [intervalsAux, hr] at heq
      · simp only [intervalsAux, hr, Option.pure_def, Option.bind_eq_bind, Option.some_bind,
          Option.some.injEq] at heq
        subst heq
        have hg0 : (0 : ℤ) ≤ g := hg g (List.mem_cons_self g gs)
        have hgs : ∀ x ∈ gs, (0 : ℤ) ≤ x := fun x hx => hg x (List.mem_cons_of_mem g hx)
        have hstep : ∀ w ∈ (addInto acc (intervalRaster xy a b g)).data, w ≤ c + g := by
          intro w hw
          rcases mem_zipWith _ _ _ _ hw with ⟨x, hx, y, hy, rfl⟩
          exact add_le_add (hacc x hx) (intervalRaster_pixel_le xy a b g hg0 y hy)
        have := intervalsAux_fold_bound xy (b :: rest) gs t hr hgs
          (addInto acc (intervalRaster xy a b g)) (c + g) hstep v
          (by simpa [List.foldl_cons] using hv)
        simp only [List.sum_cons]
        omega

/-- Adjacent differences of an ascending list of day numbers are
non-negative. -/
theorem sorted_adjacent_diff_nonneg :
    ∀ l : List ℕ, List.Sorted (· ≤ ·) l →
      ∀ g ∈ List.zipWith (fun (a b : ℕ) => (b : ℤ) - (a : ℤ)) l l.tail, 0 ≤ g
  | [], _, g, hg => by simp at hg
  | [a], _, g, hg => by simp at hg
  | a :: b :: t, hs, g, hg => by
      simp only [List.tail_cons, List.zipWith_cons_cons] at hg
      rcases List.mem_cons.mp hg with rfl | hmem
      · have hab : a ≤ b := (List.sorted_cons.mp hs).1 b (List.mem_cons_self b t)
        show (0 : ℤ) ≤ (b : ℤ) - (a : ℤ)
        omega
      · exact sorted_adjacent_diff_nonneg (b :: t) (List.sorted_cons.mp hs).2 g
          (by simpa using hmem)

/-- Adding a freshly zeroed accumulator to a list leaves the list
unchanged. -/
theorem zipWith_add_replicate_zero :
    ∀ (l : List ℤ) (n : ℕ), l.length = n →
      List.zipWith (· + ·) (List.replicate n (0 : ℤ)) l = l
  | [], _, h => by subst h; rfl
  | x :: t, n, h => by
      subst h
      simp only [List.length_cons, List.replicate_succ, List.zipWith_cons_cons, zero_add,
        List.cons.injEq, true_and]
      exact zipWith_add_replicate_zero t t.length rfl

/-- The three sequential masked assignments of lines 89-91, applied to a
sentinel-initialized target, coincide with mapping the per-pixel policy of
spec §4.4 over the pair-sums. -/
theorem masked_chain (g : ℤ) :
    ∀ s : List ℚ,
      List.zipWith (fun m v => if m = (2 : ℚ) then g else v) s
        (List.zipWith (fun m v => if m = (1 : ℚ) then Int.tdiv g 2 else v) s
          (List.zipWith (fun m v => if m = (0 : ℚ) then (0 : ℤ) else v) s
            (List.replicate s.length (-1))))
      = s.map (specContribution g)
  | [] => rfl
  | m :: s => by
      simp only [List.length_cons, List.replicate_succ, List.zipWith_cons_cons, List.map_cons]
      refine congrArg₂ List.cons ?_ (masked_chain g s)
      by_cases e0 : m = (0 : ℚ) <;> by_cases e1 : m = (1 : ℚ) <;> by_cases e2 : m = (2 : ℚ) <;>
        simp_all [specContribution]

/-! Claim theorems. -/

/-- C3: inside the accumulator, each interval raster assigns every pixel
from the elementwise pair-sum of the two consecutive rasters — sum 0 gives
0, sum 1 gives the truncated half of the interval's gap, sum 2 gives the
full gap, and any other sum (negative, fractional, or above 2) leaves the
sentinel -1 — and the literal single-pixel cases with gap 10 give 5, 10
and 0. -/
theorem C3_interval_contribution_rule (xy : ℕ × ℕ) (a b : Raster ℚ) (g : ℤ)
    (ha : a.data.length = xy.1 * xy.2) (hb : b.data.length = xy.1 * xy.2) :
    (intervalRaster xy a b g).data
        = (List.zipWith (· + ·) a.data b.data).map (specContribution g)
      ∧ intervalRaster (1, 1) ⟨(1, 1), [0]⟩ ⟨(1, 1), [1]⟩ 10 = ⟨(1, 1), [5]⟩
      ∧ intervalRaster (1, 1) ⟨(1, 1), [1]⟩ ⟨(1, 1), [1]⟩ 10 = ⟨(1, 1), [10]⟩
      ∧ intervalRaster (1, 1) ⟨(1, 1), [0]⟩ ⟨(1, 1), [0]⟩ 10 = ⟨(1, 1), [0]⟩ := by
  refine ⟨?_, ?_, ?_, ?_⟩
  · have hlen : (List.zipWith (· + ·) a.data b.data).length = xy.1 * xy.2 := by
      simp only [List.length_zipWith, ha, hb]
      omega
    simp only [intervalRaster]
    rw [← hlen]
    exact masked_chain g _
  · simp [intervalRaster]
    try norm_num
    try decide
  · simp [intervalRaster]
    try norm_num
    try decide
  · simp [intervalRaster]
    try norm_num
    try decide

/-- Witness for C3 at the spec's literal inputs. -/
theorem C3_interval_contribution_rule_witness :
    (intervalRaster (1, 1) ⟨(1, 1), [0]⟩ ⟨(1, 1), [1]⟩ 10).data
        = (List.zipWith (· + ·) [(0 : ℚ)] [(1 : ℚ)]).map (specContribution 10)
      ∧ intervalRaster (1, 1) ⟨(1, 1), [0]⟩ ⟨(1, 1), [1]⟩ 10 = ⟨(1, 1), [5]⟩
      ∧ intervalRaster (1, 1) ⟨(1, 1), [1]⟩ ⟨(1, 1), [1]⟩ 10 = ⟨(1, 1), [10]⟩
      ∧ intervalRaster (1, 1) ⟨(1, 1), [0]⟩ ⟨(1, 1), [0]⟩ 10 = ⟨(1, 1), [0]⟩ :=
  C3_interval_contribution_rule (1, 1) ⟨(1, 1), [0]⟩ ⟨(1, 1), [1]⟩ 10 (by decide) (by decide)

/-- C5: a three-sample input whose pixel has exactly one invalid interval
(contribution -1, from the non-binary value 5) and one wet-wet interval
contributing +50; the final value is 49 — non-negative, so it escapes the
clamp instead of being flagged -1. -/
theorem C5_clamp_escape :
    hydroperiod_calculation [0, 4, 50]
        [⟨(1, 1), [5]⟩, ⟨(1, 1), [1]⟩, ⟨(1, 1), [1]⟩] = some ⟨(1, 1), [49]⟩ := by
  simp [hydroperiod_calculation, intervalsAux, intervalRaster, addInto, clampPix]
  norm_num

/-- C6 counterexample: on an empty Sample Store the set of distinct shapes
has cardinality 0, and `check_array_shapes` raises its ValueError
(`len(set(shapes)) != 1`) instead of returning normally as the claim
states. -/
theorem C6_counterexample_empty_store : check_array_shapes [] = true := by decide

/-- C6 amended: the Shape Validator raises exactly when the number of
distinct raster shapes differs from one — when shapes disagree or when the
store is empty; on a non-empty store with one shared shape it returns
normally (and, being a pure function of the store, it mutates nothing). -/
theorem C6_amended_raise_iff (store : Store) :
    check_array_shapes store = true ↔
      1 < (store.map (fun s => s.2.shape)).toFinset.card ∨ store = [] := by
  rw [List.card_toFinset]
  simp only [check_array_shapes, bne_iff_ne, ne_eq]
  constructor
  · intro hne
    rcases Nat.lt_or_ge ((store.map (fun s => s.2.shape)).dedup.length) 2 with hlt | hge
    · right
      have h0 : ((store.map (fun s => s.2.shape)).dedup).length = 0 := by omega
      have h1 := (List.dedup_eq_nil _).mp (List.length_eq_zero.mp h0)
      exact List.map_eq_nil_iff.mp h1
    · left
      omega
  · rintro (hlt | rfl)
    · omega
    · simp

/-- C7 counterexample: `create_RGB` is not read-only — its first statement
`final_hydroperiod += 1` mutates the caller's array in place, so after the
call the one-pixel raster that held [0] holds [1]. -/
theorem C7_counterexample_mutates :
    create_RGB_state ⟨(1, 1), [0]⟩ ≠ ⟨(1, 1), [0]⟩ := by decide

/-- C7 amended: the renderer leaves the passed Final Duration Raster with
every pixel incremented by one (its shape unchanged); whenever the raster
has at least one pixel, the array after the call differs from the array
passed in. -/
theorem C7_amended_increment (r : Raster ℤ) (h : r.data ≠ []) :
    (create_RGB_state r).shape = r.shape ∧ create_RGB_state r ≠ r := by
  refine ⟨rfl, ?_⟩
  intro he
  have hd : r.data.map (fun v => v + 1) = r.data := congrArg Raster.data he
  cases hr : r.data with
  | nil => exact h hr
  | cons x t =>
      rw [hr] at hd
      simp only [List.map_cons, List.cons.injEq] at hd
      obtain ⟨h1, _⟩ := hd
      omega

/-- Witness for the amended C7 on a concrete one-pixel raster. -/
theorem C7_amended_increment_witness :
    (create_RGB_state ⟨(1, 1), [5]⟩).shape = ((⟨(1, 1), [5]⟩ : Raster ℤ)).shape
      ∧ create_RGB_state ⟨(1, 1), [5]⟩ ≠ ⟨(1, 1), [5]⟩ :=
  C7_amended_increment ⟨(1, 1), [5]⟩ (by decide)

/-- C1 (code bug): the Date-Series Assembler sorts the dates to build the
gap sequence but returns the rasters in dict insertion order
(`self.tif_files.values()`), not date order.  Inserting two samples
newest-first gives gaps [0, 1] for the ascending dates 0, 1 while
rasters[0] is still the date-1 raster, so position 0 of the raster list is
not the raster of the earliest date and the pair is misaligned. -/
theorem C1_misalignment_eval :
    extract_days_between_and_arrays [(1, ⟨(1, 1), [1]⟩), (0, ⟨(1, 1), [0]⟩)]
        = ([0, 1], [⟨(1, 1), [1]⟩, ⟨(1, 1), [0]⟩])
      ∧ ((⟨(1, 1), [1]⟩ : Raster ℚ)) ≠ ⟨(1, 1), [0]⟩ := by
  constructor
  · simp [extract_days_between_and_arrays, List.insertionSort, List.orderedInsert]
  · decide

/-- C2 (code bug): the same three samples inserted chronologically versus
newest-first give different final rasters (pixel 8 versus 7), although the
two stores hold the same sample set (they are permutations of each other);
the gap sequence follows the sorted dates while the rasters keep insertion
order, so insertion order is not immaterial as the spec claims. -/
theorem C2_insertion_order_changes_result :
    List.Perm
        [((0 : ℕ), (⟨(1, 1), [0]⟩ : Raster ℚ)), (4, ⟨(1, 1), [1]⟩), (10, ⟨(1, 1), [1]⟩)]
        [(10, ⟨(1, 1), [1]⟩), (4, ⟨(1, 1), [1]⟩), (0, ⟨(1, 1), [0]⟩)]
      ∧ assemble_then_accumulate
          [(0, ⟨(1, 1), [0]⟩), (4, ⟨(1, 1), [1]⟩), (10, ⟨(1, 1), [1]⟩)]
          = some ⟨(1, 1), [8]⟩
      ∧ assemble_then_accumulate
          [(10, ⟨(1, 1), [1]⟩), (4, ⟨(1, 1), [1]⟩), (0, ⟨(1, 1), [0]⟩)]
          = some ⟨(1, 1), [7]⟩
      ∧ some ((⟨(1, 1), [8]⟩ : Raster ℤ)) ≠ some ⟨(1, 1), [7]⟩ := by
  refine ⟨by decide, ?_, ?_, by decide⟩
  · simp [assemble_then_accumulate, extract_days_between_and_arrays, List.insertionSort,
      List.orderedInsert, hydroperiod_calculation, intervalsAux, intervalRaster, addInto,
      clampPix]
    try norm_num
    try decide
  · simp [assemble_then_accumulate, extract_days_between_and_arrays, List.insertionSort,
      List.orderedInsert, hydroperiod_calculation, intervalsAux, intervalRaster, addInto,
      clampPix]
    try norm_num
    try decide

/-- C4 counterexample: called with a single sample the accumulator does
not raise any error — the interval loop body never runs and the function
returns the all-zero raster. -/
theorem C4_counterexample_one_sample :
    hydroperiod_calculation [0] [⟨(1, 1), [0]⟩] = some ⟨(1, 1), [0]⟩ := by
  simp [hydroperiod_calculation, intervalsAux, addInto, clampPix]
  try decide

/-- C4 amended: with zero samples the call fails, but with an uncaught
IndexError on `arrays[0]`, not the insufficient-data ValueError the claim
names; with one sample it succeeds and returns an all-zero raster of the
sample's shape; with exactly two samples it succeeds and the result is
exactly the single interval's contribution passed through the clamp. -/
theorem C4_amended_small_inputs (g0 g1 : ℤ) (a b : Raster ℚ)
    (ha : a.wf) (hb : b.wf) (hshape : b.shape = a.shape) :
    hydroperiod_calculation [g0, g1] [] = none
      ∧ hydroperiod_calculation [g0, g1] [a]
          = some ⟨a.shape, List.replicate (a.shape.1 * a.shape.2) 0⟩
      ∧ hydroperiod_calculation [g0, g1] [a, b]
          = some ⟨a.shape, (intervalRaster a.shape a b g1).data.map clampPix⟩ := by
  refine ⟨rfl, ?_, ?_⟩
  · have h1 : hydroperiod_calculation [g0, g1] [a]
        = some ⟨a.shape, (List.replicate (a.shape.1 * a.shape.2) (0 : ℤ)).map clampPix⟩ := rfl
    have h2 : clampPix 0 = 0 := rfl
    rw [h1, List.map_replicate, h2]
  · have hbl : b.data.length = a.shape.1 * a.shape.2 := by
      have hb2 : b.data.length = b.shape.1 * b.shape.2 := hb
      rw [hb2, hshape]
    have ha2 : a.data.length = a.shape.1 * a.shape.2 := ha
    have hil := intervalRaster_data_length a.shape a b g1 ha2 hbl
    have h1 : hydroperiod_calculation [g0, g1] [a, b]
        = some ⟨a.shape,
            (List.zipWith (· + ·) (List.replicate (a.shape.1 * a.shape.2) (0 : ℤ))
              (intervalRaster a.shape a b g1).data).map clampPix⟩ := rfl
    rw [h1, zipWith_add_replicate_zero _ _ hil]

/-- Witness for the amended C4 at concrete two-pixel-free inputs. -/
theorem C4_amended_small_inputs_witness :
    hydroperiod_calculation [3, 7] [] = none
      ∧ hydroperiod_calculation [3, 7] [⟨(1, 1), [1]⟩]
          = some ⟨(1, 1), List.replicate (1 * 1) 0⟩
      ∧ hydroperiod_calculation [3, 7] [⟨(1, 1), [1]⟩, ⟨(1, 1), [1]⟩]
          = some ⟨(1, 1),
              (intervalRaster (1, 1) ⟨(1, 1), [1]⟩ ⟨(1, 1), [1]⟩ 7).data.map clampPix⟩ :=
  C4_amended_small_inputs 3 7 ⟨(1, 1), [1]⟩ ⟨(1, 1), [1]⟩ (by decide) (by decide) rfl

/-- C8: with at least one raster, one gap per sample, non-negative gaps,
and all rasters sharing the first raster's (well-formed) shape, the
accumulator succeeds; the Final Duration Raster keeps that shape and pixel
count, and every pixel is either the sentinel -1 or a non-negative
integer — the pixel-wise interval sums with negatives clamped to -1. -/
theorem C8_result_shape_and_range (days : List ℤ) (arrays : List (Raster ℚ))
    (a0 : Raster ℚ) (h0 : arrays.head? = some a0)
    (hlen : days.length = arrays.length)
    (hg : ∀ g ∈ days, 0 ≤ g)
    (hwf : ∀ a ∈ arrays, a.shape = a0.shape ∧ a.wf) :
    ∃ r, hydroperiod_calculation days arrays = some r
      ∧ r.shape = a0.shape ∧ r.wf ∧ ∀ v ∈ r.data, v = -1 ∨ 0 ≤ v := by
  cases arrays with
  | nil => simp at h0
  | cons a tail =>
      simp only [List.head?_cons, Option.some.injEq] at h0
      subst h0
      have hN : ∀ x ∈ a :: tail, x.data.length = a.shape.1 * a.shape.2 := by
        intro x hx
        rcases hwf x hx with ⟨hsx, hwx⟩
        have hwx2 : x.data.length = x.shape.1 * x.shape.2 := hwx
        rw [hwx2, hsx]
      obtain ⟨hs, heq⟩ := intervalsAux_isSome a.shape (a :: tail) (days.drop 1) (by
        simp only [List.length_drop, hlen, List.length_cons]
        omega)
      have hcalc : hydroperiod_calculation days (a :: tail)
          = some ⟨(hs.foldl addInto
                ⟨a.shape, List.replicate (a.shape.1 * a.shape.2) 0⟩).shape,
              (hs.foldl addInto
                ⟨a.shape, List.replicate (a.shape.1 * a.shape.2) 0⟩).data.map clampPix⟩ := by
        simp only [hydroperiod_calculation, heq]
      refine ⟨_, hcalc, ?_, ?_, ?_⟩
      · exact foldl_addInto_shape hs _
      · have hlens := foldl_addInto_length (a.shape.1 * a.shape.2) hs
          (intervalsAux_data_length a.shape (a :: tail) (days.drop 1) hs heq hN)
          ⟨a.shape, List.replicate (a.shape.1 * a.shape.2) 0⟩ (by simp)
        unfold Raster.wf
        dsimp only
        rw [List.length_map, hlens, foldl_addInto_shape hs]
      · intro v hv
        rcases List.mem_map.mp hv with ⟨w, _, rfl⟩
        unfold clampPix
        split <;> omega

/-- Witness for C8 on a concrete dry-then-wet pair with gap 10. -/
theorem C8_result_shape_and_range_witness :
    ∃ r, hydroperiod_calculation [0, 10] [⟨(1, 1), [0]⟩, ⟨(1, 1), [1]⟩] = some r
      ∧ r.shape = (1, 1) ∧ r.wf ∧ ∀ v ∈ r.data, v = -1 ∨ 0 ≤ v :=
  C8_result_shape_and_range [0, 10] [⟨(1, 1), [0]⟩, ⟨(1, 1), [1]⟩] ⟨(1, 1), [0]⟩
    rfl rfl (by decide) (by decide)

/-- C9: on a non-empty Sample Store, the gap sequence starts with 0, has
exactly one entry per stored sample, and every entry is a non-negative
whole number of days, the dates having been sorted ascending before the
consecutive differences are taken. -/
theorem C9_gap_sequence (store : Store) (h : store ≠ []) :
    (extract_days_between_and_arrays store).1.head? = some 0
      ∧ (extract_days_between_and_arrays store).1.length = store.length
      ∧ ∀ g ∈ (extract_days_between_and_arrays store).1, 0 ≤ g := by
  have hsorted : List.Sorted (· ≤ ·) ((store.map Prod.fst).insertionSort (· ≤ ·)) :=
    List.sorted_insertionSort _ _
  have hlen : ((store.map Prod.fst).insertionSort (· ≤ ·)).length = store.length := by
    rw [(List.perm_insertionSort _ _).length_eq, List.length_map]
  have hpos : 1 ≤ store.length := List.length_pos.mpr h
  refine ⟨rfl, ?_, ?_⟩
  · show (0 :: List.zipWith (fun (a b : ℕ) => (b : ℤ) - (a : ℤ))
        ((store.map Prod.fst).insertionSort (· ≤ ·))
        ((store.map Prod.fst).insertionSort (· ≤ ·)).tail).length = store.length
    rw [List.length_cons, List.length_zipWith, List.length_tail, hlen]
    omega
  · intro g hg
    have hg2 : g ∈ 0 :: List.zipWith (fun (a b : ℕ) => (b : ℤ) - (a : ℤ))
        ((store.map Prod.fst).insertionSort (· ≤ ·))
        ((store.map Prod.fst).insertionSort (· ≤ ·)).tail := hg
    rcases List.mem_cons.mp hg2 with rfl | hmem
    · omega
    · exact sorted_adjacent_diff_nonneg _ hsorted g hmem

/-- Witness for C9 on a two-sample store inserted newest-first. -/
theorem C9_gap_sequence_witness :
    (extract_days_between_and_arrays [(7, ⟨(1, 1), [1]⟩), (2, ⟨(1, 1), [0]⟩)]).1.head? = some 0
      ∧ (extract_days_between_and_arrays
          [(7, ⟨(1, 1), [1]⟩), (2, ⟨(1, 1), [0]⟩)]).1.length
          = ([(7, ⟨(1, 1), [1]⟩), (2, ⟨(1, 1), [0]⟩)] : Store).length
      ∧ ∀ g ∈ (extract_days_between_and_arrays
          [(7, ⟨(1, 1), [1]⟩), (2, ⟨(1, 1), [0]⟩)]).1, 0 ≤ g :=
  C9_gap_sequence [(7, ⟨(1, 1), [1]⟩), (2, ⟨(1, 1), [0]⟩)] (by decide)

/-- C10: whenever the accumulator is called with at least one raster and
one non-negative gap per sample, it succeeds and every pixel of the result
is at most the sum of gap_days[1] .. gap_days[n-1]: each interval
contributes at most its full gap and the final clamp can only lower
values. -/
theorem C10_pixel_upper_bound (days : List ℤ) (arrays : List (Raster ℚ))
    (a0 : Raster ℚ) (h0 : arrays.head? = some a0)
    (hlen : days.length = arrays.length)
    (hg : ∀ g ∈ days, 0 ≤ g) :
    ∃ r, hydroperiod_calculation days arrays = some r
      ∧ ∀ v ∈ r.data, v ≤ (days.drop 1).sum := by
  cases arrays with
  | nil => simp at h0
  | cons a tail =>
      obtain ⟨hs, heq⟩ := intervalsAux_isSome a.shape (a :: tail) (days.drop 1) (by
        simp only [List.length_drop, hlen, List.length_cons]
        omega)
      have hgd : ∀ g ∈ days.drop 1, (0 : ℤ) ≤ g :=
        fun g hgm => hg g (List.mem_of_mem_drop hgm)
      have hsum : (0 : ℤ) ≤ (days.drop 1).sum := List.sum_nonneg hgd
      have hcalc : hydroperiod_calculation days (a :: tail)
          = some ⟨(hs.foldl addInto
                ⟨a.shape, List.replicate (a.shape.1 * a.shape.2) 0⟩).shape,
              (hs.foldl addInto
                ⟨a.shape, List.replicate (a.shape.1 * a.shape.2) 0⟩).data.map clampPix⟩ := by
        simp only [hydroperiod_calculation, heq]
      have hbound := intervalsAux_fold_bound a.shape (a :: tail) (days.drop 1) hs heq hgd
        ⟨a.shape, List.replicate (a.shape.1 * a.shape.2) 0⟩ 0
        (fun v hv => le_of_eq (List.eq_of_mem_replicate hv))
      refine ⟨_, hcalc, ?_⟩
      intro v hv
      rcases List.mem_map.mp hv with ⟨w, hw, rfl⟩
      have hwb := hbound w hw
      unfold clampPix
      split <;> omega

/-- Witness for C10 on a concrete wet-wet pair with gap 10. -/
theorem C10_pixel_upper_bound_witness :
    ∃ r, hydroperiod_calculation [0, 10] [⟨(1, 1), [1]⟩, ⟨(1, 1), [1]⟩] = some r
      ∧ ∀ v ∈ r.data, v ≤ (([0, 10] : List ℤ).drop 1).sum :=
  C10_pixel_upper_bound [0, 10] [⟨(1, 1), [1]⟩, ⟨(1, 1), [1]⟩] ⟨(1, 1), [1]⟩
    rfl rfl (by decide)
